import Mathlib

/-!
Verification of the Swift code generator of this FlatBuffers fork
(`src/idl_gen_swift.cpp`).  The generator is a pure function from a schema
IR (enums, fixed structs, tables with fields) to Swift source text.  The
definitions below are a shallow embedding of the generator: each Lean
function transliterates the corresponding C++ emission routine, producing
the same `String`.  Braces that occur in the emitted Swift text are written
with the escapes \x7b and \x7d.
-/

/-- Scalar/pointer type tags, mirroring `BaseType` of the schema IR
(`BASE_TYPE_NONE` .. `BASE_TYPE_UNION`). -/
inductive BaseTy where
  | noneB | utype | boolB | charB | ucharB | shortB | ushortB
  | intB | uintB | longB | ulongB | floatB | doubleB
  | stringB | vectorB | structB | unionB
deriving DecidableEq

/-- IsScalar: `BASE_TYPE_UTYPE <= t && t <= BASE_TYPE_DOUBLE`. -/
def isScalarB : BaseTy → Bool
  | .utype | .boolB | .charB | .ucharB | .shortB | .ushortB
  | .intB | .uintB | .longB | .ulongB | .floatB | .doubleB => true
  | _ => false

/-- IsInteger: `BASE_TYPE_UTYPE <= t && t <= BASE_TYPE_ULONG`. -/
def isIntegerB : BaseTy → Bool
  | .utype | .boolB | .charB | .ucharB | .shortB | .ushortB
  | .intB | .uintB | .longB | .ulongB => true
  | _ => false

/-- Modelled from the spec: the byte size table `SizeOf` lives in the
repository's `flatbuffers/idl.h`, which is not under `src/`; scalar sizes
are the C type sizes and pointer kinds take the 4-byte offset size
(spec 4.4: "passes from largest inline size down to 1"). -/
def sizeOfB : BaseTy → Nat
  | .noneB | .utype | .boolB | .charB | .ucharB => 1
  | .shortB | .ushortB => 2
  | .intB | .uintB => 4
  | .longB | .ulongB => 8
  | .floatB => 4
  | .doubleB => 8
  | .stringB | .vectorB | .structB | .unionB => 4

/-- Modelled from the spec: the `STYPE` (Swift) column of the type table in
the repository's `flatbuffers/idl.h` is not under `src/`; names chosen to
match the Swift primitive names the generated code uses (`UInt8` is tested
against literally in `GenGetter`). -/
def swiftTypeName : BaseTy → String
  | .noneB => "UInt8"
  | .utype => "UInt8"
  | .boolB => "Bool"
  | .charB => "Int8"
  | .ucharB => "UInt8"
  | .shortB => "Int16"
  | .ushortB => "UInt16"
  | .intB => "Int32"
  | .uintB => "UInt32"
  | .longB => "Int64"
  | .ulongB => "UInt64"
  | .floatB => "Float32"
  | .doubleB => "Double"
  | .stringB => "StringOffset"
  | .vectorB => "VectorOffset"
  | .structB => "Offset"
  | .unionB => "Int"

/-- One enumerator: name and explicit integer value. -/
structure EnumVal where
  name : String
  value : Int
deriving DecidableEq

/-- An enumeration: name, underlying scalar type, ordered enumerators. -/
structure EnumDef where
  name : String
  underlying : BaseTy
  vals : List EnumVal
deriving DecidableEq

/-- Modelled from the spec: `MakeCamel` lives in the repository's
`code_generators`/util (not under `src/`): uppercase the first character
when `first` is set, and replace `_x` by `X` elsewhere. -/
def makeCamelGo : List Char → Bool → List Char
  | [], _ => []
  | c :: rest, isFirst =>
    if isFirst then c.toUpper :: makeCamelGo rest false
    else if c == '_' then
      match rest with
      | [] => [c]
      | d :: rest2 => d.toUpper :: makeCamelGo rest2 false
    else c :: makeCamelGo rest false

def makeCamel (s : String) (first : Bool) : String :=
  if first then ⟨makeCamelGo s.data true⟩ else ⟨makeCamelGo s.data false⟩

/-- Modelled from the spec: `StringToInt` (repository util, not under
`src/`) parses a decimal integer literal; default-value constants are
well-formed decimal literals per spec section 3. -/
def stringToInt (s : String) : Int :=
  let digits : List Char → Nat := fun l => l.foldl (fun acc c => acc * 10 + (c.toNat - 48)) 0
  match s.data with
  | '-' :: rest => - (digits rest : Int)
  | l => (digits l : Int)

/-- Substring test helper on character lists. -/
def listContains (needle : List Char) : List Char → Bool
  | [] => needle.isEmpty
  | c :: rest => needle.isPrefixOf (c :: rest) || listContains needle rest

/-- Substring test on the underlying character lists. -/
def strContains (needle hay : String) : Bool :=
  listContains needle.data hay.data

mutual

/-- Field type, the closed tagged variant of spec section 3 mirroring the
IR `Type`: scalars carry an optional enum reference, vectors their element
type, struct fields the referenced record, unions their enum. -/
inductive FTy where
  | scalar (b : BaseTy) (enumRef : Option EnumDef) : FTy
  | str : FTy
  | vec (elem : FTy) : FTy
  | strukt (sd : SDef) : FTy
  | uni (enumRef : Option EnumDef) : FTy

/-- RecordType (`StructDef`): name, fixed flag, layout numbers, flags and
ordered fields. -/
inductive SDef where
  | mk (name : String) (fixed : Bool) (minalign : Nat) (bytesize : Nat)
       (sortbysize : Bool) (hasKey : Bool) (fields : List FieldD) : SDef

/-- Field (`FieldDef`): name, type, offset (`value.offset`), flags, trailing
padding and the default-value literal (`value.constant`). -/
inductive FieldD where
  | mk (name : String) (ty : FTy) (offset : Nat) (deprecated : Bool)
       (required : Bool) (key : Bool) (padding : Nat) (constant : String) : FieldD

end

def SDef.name : SDef → String
  | .mk n _ _ _ _ _ _ => n

def SDef.fixed : SDef → Bool
  | .mk _ f _ _ _ _ _ => f

def SDef.minalign : SDef → Nat
  | .mk _ _ m _ _ _ _ => m

def SDef.bytesize : SDef → Nat
  | .mk _ _ _ b _ _ _ => b

def SDef.sortbysize : SDef → Bool
  | .mk _ _ _ _ s _ _ => s

def SDef.hasKey : SDef → Bool
  | .mk _ _ _ _ _ k _ => k

def SDef.fields : SDef → List FieldD
  | .mk _ _ _ _ _ _ fs => fs

def FieldD.name : FieldD → String
  | .mk n _ _ _ _ _ _ _ => n

def FieldD.ty : FieldD → FTy
  | .mk _ t _ _ _ _ _ _ => t

def FieldD.offset : FieldD → Nat
  | .mk _ _ o _ _ _ _ _ => o

def FieldD.deprecated : FieldD → Bool
  | .mk _ _ _ d _ _ _ _ => d

def FieldD.required : FieldD → Bool
  | .mk _ _ _ _ r _ _ _ => r

def FieldD.key : FieldD → Bool
  | .mk _ _ _ _ _ k _ _ => k

def FieldD.padding : FieldD → Nat
  | .mk _ _ _ _ _ _ p _ => p

def FieldD.constant : FieldD → String
  | .mk _ _ _ _ _ _ _ c => c

/-- The `base_type` tag of a field type. -/
def baseOf : FTy → BaseTy
  | .scalar b _ => b
  | .str => .stringB
  | .vec _ => .vectorB
  | .strukt _ => .structB
  | .uni _ => .unionB

/-- The IR stores `enum_def` flat on the `Type`; for a vector it is the
element's enum. -/
def enumRefOf : FTy → Option EnumDef
  | .scalar _ e => e
  | .vec e => enumRefOf e
  | .uni e => e
  | _ => none

/-- `Type::VectorType()`: the element type of a vector (identity
otherwise, matching the C++ accessor's use sites). -/
def vectorElem : FTy → FTy
  | .vec e => e
  | t => t

/-- `type.element`: the element base type of a vector, `BASE_TYPE_NONE`
otherwise. -/
def vectorElemBase : FTy → BaseTy
  | .vec e => baseOf e
  | _ => .noneB

/-- `IsStruct`: a struct-typed field whose referenced record is fixed. -/
def isStructTy : FTy → Bool
  | .strukt sd => sd.fixed
  | _ => false

/-- `InlineSize`: bytesize for fixed structs, `SizeOf` otherwise. -/
def inlineSize (t : FTy) : Nat :=
  match t with
  | .strukt sd => if sd.fixed then sd.bytesize else sizeOfB .structB
  | _ => sizeOfB (baseOf t)

/-- `InlineAlignment`: minalign for fixed structs, `SizeOf` otherwise. -/
def inlineAlignment (t : FTy) : Nat :=
  match t with
  | .strukt sd => if sd.fixed then sd.minalign else sizeOfB .structB
  | _ => sizeOfB (baseOf t)

/-- `IsEnum`: an enum reference on an integer base type. -/
def isEnumTy : FTy → Bool
  | .scalar b (some _) => isIntegerB b
  | _ => false

/-- Name of the referenced enum (used only where `IsEnum` holds). -/
def enumRefName : FTy → String
  | .scalar _ (some e) => e.name
  | .vec e => enumRefName e
  | .uni (some e) => e.name
  | _ => ""

/-- `GenTypeBasic(type, enableLangOverrides)` (src lines 108-124). -/
def genTypeBasic (t : FTy) (langOverrides : Bool) : String :=
  if langOverrides then
    if isEnumTy t then enumRefName t
    else match t with
      | .strukt sd => "Offset<" ++ sd.name ++ ">"
      | _ => swiftTypeName (baseOf t)
  else swiftTypeName (baseOf t)

/-- `GenTypeGet` (src lines 147-151), with `GenTypePointer` (src lines
130-145) inlined in the non-scalar branch so the recursion on the vector
element stays structural. -/
def genTypeGet (t : FTy) : String :=
  if isScalarB (baseOf t) then genTypeBasic t true
  else match t with
    | .str => "String"
    | .vec e => genTypeGet e
    | .strukt sd => sd.name
    | .uni _ => "TTable"
    | _ => "Table"

/-- `GenTypePointer` (src lines 130-145). -/
def genTypePointer : FTy → String
  | .str => "String"
  | .vec e => genTypeGet e
  | .strukt sd => sd.name
  | .uni _ => "TTable"
  | _ => "Table"

/-- `GenTypeNameDest` (src lines 175-178); `DestinationType` is the
identity in this generator. -/
def genTypeNameDest (t : FTy) : String :=
  genTypeGet t

/-- `DestinationCast` (src lines 194-204). -/
def destinationCast : FTy → String
  | .vec e => destinationCast e
  | t => if isEnumTy t then enumRefName t ++ "(rawValue: " else ""

/-- `DestinationMask` (src lines 181-191): the vector case returns
`DestinationCast` of the element (src line 183), so an enum-element
vector's mask is the duplicated `EnumName(rawValue: ` text, not `)!`. -/
def destinationMask : FTy → String
  | .vec e => destinationCast e
  | t => if isEnumTy t then ")!" else ""

/-- `SourceCast` (src lines 212-223): every branch of the Swift port
returns the empty string (the enum case is commented out). -/
def sourceCast (_ : FTy) : String := ""

/-- `SourceCastBasic` (src lines 225-231). -/
def sourceCastBasic (t : FTy) : String :=
  if isScalarB (baseOf t) then sourceCast t else ""

/-- `GenEnumDefaultValue` (src lines 234-249): locate the enumerator whose
value matches the constant, falling back to the raw literal. -/
def genEnumDefaultValue (ty : FTy) (constant : String) : String :=
  match enumRefOf ty with
  | none => constant
  | some ed =>
    let dv := stringToInt constant
    match ed.vals.find? (fun ev => ev.value == dv) with
    | some ev => ed.name ++ "." ++ (if ev.name == "NONE" then "none" else ev.name)
    | none => constant

/-- `GenDefaultValue(value, enableLangOverrides)` (src lines 251-272). -/
def genDefaultValue (ty : FTy) (constant : String) (langOverrides : Bool) : String :=
  if langOverrides && (enumRefOf ty).isSome && baseOf ty ≠ .unionB then
    genEnumDefaultValue ty constant
  else
    match baseOf ty with
    | .floatB => constant ++ ""
    | .boolB => if constant == "0" then "false" else "true"
    | .ulongB => constant
    | .uintB => constant ++ ""
    | .longB => constant ++ ""
    | _ => constant

/-- `GenDefaultValueBasic(value, enableLangOverrides)` (src lines 278-296). -/
def genDefaultValueBasic (ty : FTy) (constant : String) (langOverrides : Bool) : String :=
  if ¬ isScalarB (baseOf ty) then
    if langOverrides then
      match ty with
      | .str => "StringOffset(0)"
      | .strukt sd => "Offset<" ++ sd.name ++ ">(0)"
      | .vec _ => "VectorOffset(0)"
      | _ => "0"
    else "0"
  else genDefaultValue ty constant langOverrides

/-- `GenGetter` (src lines 357-374); `FunctionStart('G') + "et"` is
`"get"`. -/
def genGetter : FTy → String
  | .str => "__p.__string"
  | .strukt _ => "__p.__struct"
  | .uni _ => "__p.__union"
  | .vec e => genGetter e
  | t =>
    if baseOf t == .boolB then "0!=" ++ "__p.bb.get"
    else if genTypeBasic t false != "UInt8" then "__p.bb.get" ++ makeCamel (genTypeBasic t false) true
    else "__p.bb.get"

/-- `GenSetter` (src lines 394-406). -/
def genSetter (t : FTy) : String :=
  if isScalarB (baseOf t) then
    if genTypeBasic t false != "byte" && baseOf t != .boolB then
      "__p.bb.put" ++ makeCamel (genTypeBasic t false) true
    else "__p.bb.put"
  else ""

/-- `GenMethod` (src lines 409-413). -/
def genMethod (t : FTy) : String :=
  if isScalarB (baseOf t) then makeCamel (genTypeBasic t false) true
  else if isStructTy t then "Struct" else "Offset"

/-- `GenOffsetType` (src lines 159-161). -/
def genOffsetType (sd : SDef) : String :=
  "Offset<" ++ sd.name ++ ">"

/-- `GenOffsetConstruct` (src lines 163-168). -/
def genOffsetConstruct (sd : SDef) (variableName : String) : String :=
  "Offset<" ++ sd.name ++ ">(" ++ variableName ++ ")"

/-- Enumerator case name: `NONE` becomes `none`, else lower camel case
(src line 317). -/
def caseNameOf (n : String) : String :=
  if n == "NONE" then "none" else makeCamel n false

/-- The case lines of `GenEnum` (src lines 312-320). -/
def genEnumCases : List EnumVal → String
  | [] => ""
  | ev :: rest =>
    "    case " ++ caseNameOf ev.name ++ " = " ++ toString ev.value ++ "\n" ++ genEnumCases rest

/-- `range = back - front + 1` (src lines 326-327). -/
def enumRange (ed : EnumDef) : Int :=
  match ed.vals.head?, ed.vals.getLast? with
  | some f, some b => b.value - f.value + 1
  | _, _ => 1

/-- The sparseness gate `range / size < kMaxSparseness` with
`kMaxSparseness = 5`; C++ `int64_t` division truncates toward zero, which
is `Int.tdiv` (src lines 330-331). -/
def enumShouldEmitNames (ed : EnumDef) : Bool :=
  decide (Int.tdiv (enumRange ed) (ed.vals.length : Int) < 5)

/-- A run of `n` empty-string placeholders, as printed by the gap-filling
`while` loop (src line 338). -/
def placeholderRun : Nat → String
  | 0 => ""
  | n + 1 => "\"\", " ++ placeholderRun n

/-- The names-table entries (src lines 334-341).  The C++ loop
`while (val++ != ev.value)` emits `ev.value - val` placeholders and leaves
`val = ev.value + 1`; on values below `val` the C++ loop would not
terminate, here the gap is clamped by `Int.toNat`. -/
def enumNamesText : Int → List EnumVal → String
  | _, [] => ""
  | val, ev :: rest =>
    placeholderRun (ev.value - val).toNat ++ "\"" ++ caseNameOf ev.name ++ "\", "
      ++ enumNamesText (ev.value + 1) rest

/-- The same entries as a list, one element per table slot, for reasoning
about positional indexing. -/
def enumNamesList : Int → List EnumVal → List String
  | _, [] => []
  | val, ev :: rest =>
    List.replicate (ev.value - val).toNat "" ++ [caseNameOf ev.name]
      ++ enumNamesList (ev.value + 1) rest

/-- The value of the first enumerator (0 for an empty enum, which the C++
would never reach). -/
def enumFrontValue (ed : EnumDef) : Int :=
  match ed.vals.head? with
  | some f => f.value
  | none => 0

/-- The name of the first enumerator. -/
def enumFrontName (ed : EnumDef) : String :=
  match ed.vals.head? with
  | some f => f.name
  | none => ""

/-- The name-lookup function emitted with the dense table (src lines
343-348): note the subtrahend is the first enumerator's *name*. -/
def enumNameFnText (ed : EnumDef) : String :=
  "  public static func" ++ " " ++ makeCamel "name" false
    ++ "(_ e: Int) -> String \x7b return names[e"
    ++ (if enumFrontValue ed ≠ 0 then " - " ++ enumFrontName ed else "")
    ++ "]; \x7d\n"

/-- `GenEnum` (src lines 302-354), without doc comments (empty here). -/
def genEnum (ed : EnumDef) : String :=
  "public enum " ++ ed.name ++ " : " ++ genTypeBasic (.scalar ed.underlying none) false
    ++ " \x7b\n"
    ++ genEnumCases ed.vals
    ++ (if enumShouldEmitNames ed then
          "\n  public static " ++ "let names : [String] = [ "
            ++ enumNamesText (enumFrontValue ed) ed.vals
            ++ "]\n\n"
            ++ enumNameFnText ed
        else "")
    ++ "\x7d" ++ "\n\n"

/-- The `Prep` reservation line emitted at the head of every
`GenStructBody` call (src lines 446-448). -/
def prepLine (sd : SDef) : String :=
  "    builder.prep(size:" ++ toString sd.minalign ++ ", additionalBytes: "
    ++ toString sd.bytesize ++ ");\n"

/-- The padding line emitted before a field's write when it carries
trailing padding (src lines 452-455). -/
def padLine (f : FieldD) : String :=
  if f.padding ≠ 0 then "    builder.pad(size: " ++ toString f.padding ++ ");\n" else ""

/-- The primitive write for a non-struct field (src lines 460-468). -/
def putLine (f : FieldD) (pfx : String) : String :=
  "    builder.put" ++ genMethod f.ty ++ "(" ++ sourceCast f.ty
    ++ pfx ++ makeCamel f.name false
    ++ (if isEnumTy f.ty then ".rawValue" else "") ++ ");\n"

mutual

/-- `GenStructBody` (src lines 443-471): reserve, then walk the fields in
reverse declaration order. -/
def genStructBody : SDef → String → String
  | sd@(.mk _ _ _ _ _ _ fs), pfx => prepLine sd ++ genStructBodyFieldsRev fs pfx

/-- The reverse-order field walk: the C++ iterates `rbegin..rend`, i.e.
later fields are emitted first. -/
def genStructBodyFieldsRev : List FieldD → String → String
  | [], _ => ""
  | f :: rest, pfx => genStructBodyFieldsRev rest pfx ++ genStructBodyField f pfx

/-- One field of the reverse walk: padding first, then either the nested
recursion (for `IsStruct` fields, with the parent name prefixed) or the
primitive write. -/
def genStructBodyField : FieldD → String → String
  | f@(.mk _ (.strukt sd2) _ _ _ _ _ _), pfx =>
    padLine f ++
      (if sd2.fixed then genStructBody sd2 (pfx ++ f.name ++ "_") else putLine f pfx)
  | f, pfx => padLine f ++ putLine f pfx

end

/-- The offset-test code shared by the table accessors
(`offset_prefix`, src lines 627-629). -/
def accOffsetPre (f : FieldD) : String :=
  " \x7b let o = __p.__offset(" ++ toString f.offset ++ "); if o != 0 \x7b "

/-- The accessor (read) for one non-deprecated field, `GenStruct` src
lines 602-745, without doc comments.  The emitted text is
`method_start ++ body ++ member_suffix ++ "}\n"` exactly as the C++
appends it. -/
def genFieldAccessor (sd : SDef) (f : FieldD) : String :=
  let typeName := genTypeGet f.ty
  let typeNameDest := genTypeNameDest f.ty
  let optionalQ :=
    if ¬ sd.fixed && (baseOf f.ty == .structB || baseOf f.ty == .unionB
        || (baseOf f.ty == .vectorB && vectorElemBase f.ty == .structB)) then "?" else ""
  let conditionalCast :=
    if ¬ sd.fixed && (baseOf f.ty == .structB || baseOf f.ty == .unionB
        || (baseOf f.ty == .vectorB && vectorElemBase f.ty == .structB)) then
      typeNameDest ++ "?"
    else ""
  let destMask := destinationMask f.ty
  let destCast := destinationCast f.ty
  let methodStart :=
    match baseOf f.ty with
    | .unionB => "    public func " ++ makeCamel f.name false ++ "<TTable : FlatbufferObject>() -> TTable? "
    | .vectorB => "    public func " ++ makeCamel f.name false ++ ""
    | _ => "  public var " ++ makeCamel f.name false ++ " : " ++ typeNameDest ++ optionalQ ++ " "
  let obj := typeName ++ "()"
  let offsetPre := accOffsetPre f
  let getter := destCast ++ genGetter f.ty
  let defaultCast :=
    if isScalarB (baseOf f.ty) || (baseOf f.ty == .vectorB && isScalarB (vectorElemBase f.ty)) then
      if (enumRefOf f.ty).isNone || baseOf f.ty == .vectorB then typeNameDest ++ "(" else "("
    else "("
  let scalarSuffix := "; " ++ "\x7d "
  if isScalarB (baseOf f.ty) then
    methodStart ++ " \x7b get"
      ++ (if sd.fixed then
            " \x7b return " ++ getter ++ "(at: __p.bb_pos + " ++ toString f.offset ++ ")" ++ destMask
          else
            offsetPre ++ "return " ++ getter ++ "(at: o + __p.bb_pos)" ++ destMask
              ++ " \x7d else \x7b return " ++ defaultCast
              ++ genDefaultValue f.ty f.constant true ++ ") \x7d")
      ++ scalarSuffix ++ "\x7d\n"
  else
    match f.ty with
    | .strukt sd2 =>
      methodStart ++ " \x7b get"
        ++ (if sd.fixed then
              " \x7b var obj = " ++ obj ++ "; return obj.__assign(__p." ++ "bb_pos + "
                ++ toString f.offset ++ ", " ++ "__p.bb)"
            else
              offsetPre ++ "var obj = " ++ obj ++ "; return obj.__assign("
                ++ (if sd2.fixed then "o + __p.bb_pos" else "__p.__indirect(o + __p.bb_pos)")
                ++ ", __p.bb) \x7d else \x7b return nil \x7d")
        ++ scalarSuffix ++ "\x7d\n"
    | .str =>
      methodStart ++ " \x7b get"
        ++ offsetPre ++ "return " ++ getter ++ "(at: o + __p." ++ "bb_pos) \x7d else \x7b"
        ++ (if f.required then " fatalError() \x7d" else " return nil \x7d")
        ++ scalarSuffix ++ "\x7d\n"
    | .vec velem =>
      let index := "__p.__vector(o) + j * " ++ toString (inlineSize velem)
      methodStart ++ "(at j: Int) -> "
        ++ (if baseOf velem == .structB then
              conditionalCast ++ offsetPre ++ ("var obj = " ++ obj ++ "; ") ++ "return obj.__assign("
            else
              conditionalCast ++ offsetPre ++ "return " ++ getter ++ "(at: ")
        ++ (if baseOf velem == .structB then
              (if isStructTy velem then index else "__p.__indirect(" ++ index ++ ")") ++ ", __p.bb"
            else index)
        ++ ")" ++ destMask ++ " \x7d else \x7b return "
        ++ (if vectorElemBase f.ty == .boolB then "false"
            else if isScalarB (vectorElemBase f.ty) then defaultCast ++ "0" else "nil")
        ++ " \x7d "
        ++ "; " ++ "\x7d\n"
    | .uni _ =>
      methodStart
        ++ offsetPre ++ "return " ++ getter ++ "(o) \x7d else \x7b return nil \x7d"
        ++ "; " ++ "\x7d\n"
    | .scalar _ _ =>
      -- unreachable: handled by the `isScalarB` branch above
      ""

/-- The vector length accessor (src lines 746-754). -/
def genVectorLength (f : FieldD) : String :=
  "  public var " ++ makeCamel f.name false ++ "Length : Int" ++ " \x7b get"
    ++ accOffsetPre f
    ++ "return __p.__vector_len(o) \x7d else \x7b return 0 \x7d; " ++ "\x7d " ++ "\x7d\n"

/-- Scalar mutator generation (src lines 789-830): only under the
`mutable_buffer` option, only for scalars and vectors of scalars; tables
get the offset test with a Bool result, fixed records write
unconditionally. -/
def genMutator (mutableBuffer : Bool) (sd : SDef) (f : FieldD) : String :=
  if ¬ mutableBuffer then ""
  else
    let underlyingTy := vectorElem f.ty
    let setterParameter :=
      if baseOf underlyingTy == .boolB then "(byte)(" ++ f.name ++ " ? 1 : 0)" else f.name
    let mutatorParams :=
      (if baseOf f.ty == .vectorB then "(int j, " else "(")
        ++ genTypeNameDest underlyingTy ++ " " ++ f.name ++ ") \x7b "
    let setterIndex :=
      if baseOf f.ty == .vectorB then
        "__p.__vector(o) + j * " ++ toString (inlineSize underlyingTy)
      else if sd.fixed then "__p.bb_pos + " ++ toString f.offset
      else "o + __p.bb_pos"
    if isScalarB (baseOf f.ty) || (baseOf f.ty == .vectorB && isScalarB (baseOf underlyingTy)) then
      "  public " ++ (if sd.fixed then "void " else "Bool")
        ++ makeCamel "mutate" false ++ makeCamel f.name true
        ++ mutatorParams
        ++ (if sd.fixed then
              genSetter underlyingTy ++ "(" ++ setterIndex ++ ", "
                ++ sourceCast f.ty ++ setterParameter ++ "); \x7d\n"
            else
              "let o = __p.__offset(" ++ toString f.offset ++ ");"
                ++ " if (o != 0) \x7b " ++ genSetter underlyingTy
                ++ "(" ++ setterIndex ++ ", " ++ sourceCast f.ty ++ setterParameter
                ++ "); return true; \x7d else \x7b return false; \x7d \x7d\n")
    else ""

/-- `has_no_struct_fields` of the create-method gate (src lines 850-861):
deprecated fields are skipped before the `IsStruct` test. -/
def hasNoStructFields (sd : SDef) : Bool :=
  sd.fields.all (fun f => f.deprecated || ¬ isStructTy f.ty)

/-- `num_fields` of the create-method gate: non-deprecated, non-struct
fields. -/
def createNumFields (sd : SDef) : Nat :=
  (sd.fields.filter (fun f => ¬ f.deprecated && ¬ isStructTy f.ty)).length

/-- The create method's parameter list (src lines 868-880). -/
def createArgsText : List FieldD → String
  | [] => ""
  | f :: rest =>
    (if f.deprecated then "" else
      ",\n      " ++ makeCamel f.name false
        ++ (if ¬ isScalarB (baseOf f.ty) then "Offset" else "") ++ ": "
        ++ genTypeBasic f.ty true ++ " = " ++ genDefaultValueBasic f.ty f.constant true)
      ++ createArgsText rest

/-- One `add` call inside the create method (src lines 893-899). -/
def createAddCall (sdName : String) (f : FieldD) : String :=
  let argname := makeCamel f.name false ++ (if ¬ isScalarB (baseOf f.ty) then "Offset" else "")
  "    " ++ sdName ++ "." ++ "add" ++ makeCamel f.name true
    ++ "(builder, " ++ argname ++ ": " ++ argname ++ ");\n"

/-- Whether a field is emitted in the pass for `size` (src lines 890-892). -/
def createPassCond (sd : SDef) (size : Nat) (f : FieldD) : Bool :=
  ¬ f.deprecated && (¬ sd.sortbysize || size == sizeOfB (baseOf f.ty))

/-- The inner loop of the create method for one `size` pass: the C++
iterates the fields with `rbegin..rend`, i.e. later fields first
(src lines 887-901). -/
def createAddLoopInner (sd : SDef) (size : Nat) : List FieldD → String
  | [] => ""
  | f :: rest =>
    createAddLoopInner sd size rest
      ++ (if createPassCond sd size f then createAddCall sd.name f else "")

/-- The outer size loop (src lines 884-886): `size` starts at
`sizeof(largest_scalar_t) = 8` when `sortbysize` is set, else at 1, and
halves until zero. -/
def createSizes (sd : SDef) : List Nat :=
  if sd.sortbysize then [8, 4, 2, 1] else [1]

def createAddLoop (sd : SDef) : List Nat → String
  | [] => ""
  | s :: ss => createAddLoopInner sd s sd.fields ++ createAddLoop sd ss

/-- The fields of the create method in emission order (the same loops as
`createAddLoop`, collecting fields instead of text). -/
def createAddOrderInner (sd : SDef) (size : Nat) : List FieldD → List FieldD
  | [] => []
  | f :: rest =>
    createAddOrderInner sd size rest ++ (if createPassCond sd size f then [f] else [])

def createAddOrder (sd : SDef) : List FieldD :=
  ((createSizes sd).map (fun s => createAddOrderInner sd s sd.fields)).flatten

/-- `CreateName` convenience method for a table (src lines 846-906),
emitted only when the table has no (non-deprecated) fixed-struct field and
at least one other non-deprecated field. -/
def genCreate (sd : SDef) : String :=
  if hasNoStructFields sd && createNumFields sd ≠ 0 then
    "  public static func " ++ "create" ++ sd.name ++ "(_ builder: FlatBufferBuilder"
      ++ createArgsText sd.fields
      ++ ") -> " ++ genOffsetType sd ++ " \x7b\n    builder."
      ++ "startObject(numFields: " ++ toString sd.fields.length ++ ");\n"
      ++ createAddLoop sd (createSizes sd)
      ++ "    return " ++ sd.name ++ "." ++ "end" ++ sd.name ++ "(builder);\n  \x7d\n\n"
  else ""

/-- `StartName` (src lines 912-916): announces the full field count,
deprecated fields included. -/
def genStart (sd : SDef) : String :=
  "  public static func " ++ "start" ++ sd.name
    ++ "(_ builder: FlatBufferBuilder) \x7b builder."
    ++ "startObject(numFields: " ++ toString sd.fields.length ++ "); \x7d\n"

/-- `AddField` for the field at declaration index `i` (src lines 922-946):
the slot passed to the builder is `it - fields.begin()`, the declaration
index over the full field list. -/
def genAddMethod (i : Nat) (f : FieldD) : String :=
  let argname := makeCamel f.name false ++ (if ¬ isScalarB (baseOf f.ty) then "Offset" else "")
  let passedArg :=
    if ¬ isScalarB (baseOf f.ty) && baseOf f.ty ≠ .unionB then argname ++ ".value"
    else if (enumRefOf f.ty).isSome then
      if isScalarB (baseOf f.ty) then argname ++ ".rawValue" else "Int(" ++ argname ++ ")"
    else argname
  "  public static func " ++ "add" ++ makeCamel f.name true
    ++ "(_ builder: FlatBufferBuilder, "
    ++ argname ++ ": " ++ genTypeBasic f.ty true ++ ""
    ++ ") \x7b builder." ++ "add"
    ++ genMethod f.ty ++ "(" ++ toString i ++ ", " ++ sourceCastBasic f.ty
    ++ passedArg ++ ", " ++ genDefaultValue f.ty f.constant false ++ "); \x7d\n"

/-- The per-vector-field helper methods `CreateFieldVector` /
`StartFieldVector` (src lines 947-981). -/
def genVectorExtras (f : FieldD) : String :=
  match f.ty with
  | .vec e =>
    (if ¬ isStructTy e then
      "  public static func " ++ "create" ++ makeCamel f.name true
        ++ "Vector(_ builder: FlatBufferBuilder, data: ["
        ++ genTypeBasic e true ++ "]) -> " ++ "VectorOffset"
        ++ " \x7b builder." ++ "startVector(elemSize: " ++ toString (inlineSize e)
        ++ ", count: data.count, alignment: " ++ toString (inlineAlignment e)
        ++ "); for i in (0..<data.count).reversed() \x7b builder.add"
        ++ genMethod e ++ "(" ++ sourceCastBasic e ++ "data[i]"
        ++ (if baseOf e == .structB || baseOf e == .stringB then ".value" else "")
        ++ "); \x7d; return " ++ "builder." ++ "endVector(); \x7d\n"
     else "")
    ++ "  public static func " ++ "start" ++ makeCamel f.name true
      ++ "Vector(_ builder: FlatBufferBuilder, numElems: Int) "
      ++ "\x7b builder." ++ "startVector(elemSize: " ++ toString (inlineSize e)
      ++ ", count: numElems, alignment: " ++ toString (inlineAlignment e) ++ "); \x7d\n"
  | _ => ""

/-- The whole add-method section (the loop of src lines 917-982), keeping
the declaration index while skipping deprecated fields. -/
def genAddSection : Nat → List FieldD → String
  | _, [] => ""
  | i, f :: rest =>
    (if f.deprecated then "" else
      genAddMethod i f ++ (if baseOf f.ty == .vectorB then genVectorExtras f else ""))
      ++ genAddSection (i + 1) rest

/-- One required-field validation call in `EndName` (src lines 991-995). -/
def requiredCallText (f : FieldD) : String :=
  "    builder.`" ++ "required`(o, " ++ toString f.offset ++ ");  // " ++ f.name ++ "\n"

/-- The required-validation calls of `EndName` (src lines 987-996):
emitted for fields that are required and not deprecated. -/
def genEndRequiredCalls : List FieldD → String
  | [] => ""
  | f :: rest =>
    (if ¬ f.deprecated && f.required then requiredCallText f else "")
      ++ genEndRequiredCalls rest

/-- `EndName` (src lines 983-997). -/
def genEnd (sd : SDef) : String :=
  "  public static func " ++ "end" ++ sd.name
    ++ "(_ builder: FlatBufferBuilder) -> " ++ genOffsetType sd
    ++ " \x7b\n    let o = builder." ++ "endObject();\n"
    ++ genEndRequiredCalls sd.fields
    ++ "    return " ++ genOffsetConstruct sd "o" ++ ";\n  \x7d\n"

/-- `GenOffsetGetter` (src lines 479-492). -/
def genOffsetGetter (kf : FieldD) (num : Option String) : String :=
  "Table.__offset(" ++ toString kf.offset ++ ", "
    ++ (match num with
        | some n => n ++ ".value, builder.dataBuffer)"
        | none => "bb" ++ ".length" ++ " - tableOffset, bb)")

/-- `GenGetterForLookupByKey` (src lines 377-390). -/
def genGetterForLookupByKey (kf : FieldD) (dataBuffer : String) (num : Option String) : String :=
  destinationCast kf.ty
    ++ dataBuffer ++ "." ++ "get"
    ++ (if genTypeBasic kf.ty false != "UInt8" then makeCamel (genTypeBasic kf.ty false) true else "")
    ++ "(at: " ++ genOffsetGetter kf num ++ ")" ++ destinationMask kf.ty

/-- `GenLookupKeyGetter` (src lines 494-511): resolve the table
indirection, then the three-way comparison, for string and for numeric
keys. -/
def genLookupKeyGetter (kf : FieldD) : String :=
  "      " ++ "let tableOffset = Table."
    ++ "__indirect(vectorLocation + 4 * (start + middle)" ++ ", bb);\n      "
    ++ (if baseOf kf.ty == .stringB then
          "let comp = Table." ++ "compareStrings("
            ++ genOffsetGetter kf none ++ ", byteKey, bb);\n"
        else
          genTypeNameDest kf.ty ++ " val = " ++ genGetterForLookupByKey kf "bb" none ++ ";\n"
            ++ "      let comp = val > key ? 1 : val < key ? -1 : 0;\n")

/-- `GenKeyGetter`, the sort comparator body (src lines 514-533). -/
def genKeyGetter (kf : FieldD) : String :=
  if baseOf kf.ty == .stringB then
    "Table." ++ "compareStrings(" ++ genOffsetGetter kf (some "o1") ++ ", "
      ++ genOffsetGetter kf (some "o2") ++ ", " ++ "builder.dataBuffer" ++ ")"
  else
    "\n    " ++ genTypeNameDest kf.ty ++ " val_1 = "
      ++ genGetterForLookupByKey kf "builder.dataBuffer" (some "o1") ++ ";\n    "
      ++ genTypeNameDest kf.ty ++ " val_2 = "
      ++ genGetterForLookupByKey kf "builder.dataBuffer" (some "o2") ++ ";\n"
      ++ "    return val_1 > val_2 ? 1 : val_1 < val_2 ? -1 : 0;\n "

/-- The sorted-vector creator of the `has_key` section (src lines
1011-1017). -/
def genSortedVectorMethod (sd : SDef) (kf : FieldD) : String :=
  "\n  public static func "
    ++ "createMySortedVectorOfTables(_ builder: FlatBufferBuilder, "
    ++ "_ offsets: inout [Offset<" ++ sd.name ++ ">" ++ "]) -> VectorOffset \x7b\n"
    ++ "    offsets.sort \x7b (o1, o2) in\n " ++ genKeyGetter kf ++ " < 0; \x7d\n"
    ++ "    return builder.createVectorOfTables(offsets);\n  \x7d\n"

/-- `LookupByKey` of the `has_key` section (src lines 1019-1047).
In the C++ the brace of `if (key_field->...== BASE_TYPE_STRING)` opened at
line 1023 only closes at line 1048: everything from the `byteKey` line
through the whole binary-search loop and the final `return nil` is inside
that conditional, so a non-string key field gets nothing but the
signature line. -/
def genLookupByKey (sd : SDef) (kf : FieldD) : String :=
  "\n  public static func" ++ " " ++ "lookupByKey(vectorOffset: " ++ "VectorOffset"
    ++ ", key: " ++ genTypeNameDest kf.ty ++ ", _ bb: ByteBuffer) -> " ++ sd.name ++ "? \x7b\n"
    ++ (if baseOf kf.ty == .stringB then
          "    let byteKey = key.utf8CString\n"
            ++ "    var vectorLocation = " ++ "bb" ++ ".length" ++ " - vectorOffset"
            ++ ".value" ++ ";\n    var span = "
            ++ "Int(bb." ++ "getInt32(at: vectorLocation));\n"
            ++ "    var start = 0;\n"
            ++ "    vectorLocation += 4;\n"
            ++ "    while (span != 0) \x7b\n"
            ++ "      var middle = span / 2;\n"
            ++ genLookupKeyGetter kf
            ++ "      if (comp > 0) \x7b\n"
            ++ "        span = middle;\n"
            ++ "      \x7d else if (comp < 0) \x7b\n"
            ++ "        middle += 1;\n"
            ++ "        start += middle;\n"
            ++ "        span -= middle;\n"
            ++ "      \x7d else \x7b\n"
            ++ "        var obj = " ++ sd.name ++ "();\n"
            ++ "        return obj" ++ ".__assign(tableOffset, bb);\n"
            ++ "      \x7d\n    \x7d\n"
            ++ "    return nil;\n"
            ++ "  \x7d\n"
        else "")

/-- The key field the `has_key` section uses: the loop of src lines
917-921 records the last non-deprecated field flagged `key`. -/
def findKeyField (sd : SDef) : Option FieldD :=
  sd.fields.foldl (fun acc f => if ¬ f.deprecated && f.key then some f else acc) none

/-- The whole `has_key` section (src lines 1009-1048); with no key field
the C++ would dereference null, which cannot happen for well-formed IR. -/
def genHasKeySection (sd : SDef) : String :=
  if sd.hasKey then
    match findKeyField sd with
    | some kf => genSortedVectorMethod sd kf ++ genLookupByKey sd kf
    | none => ""
  else ""

/-! Concrete schemas used by the witnesses and counterexamples. -/

/-- Dense enum, values 0..4. -/
def edDense : EnumDef := ⟨"Color", .ucharB, [⟨"A", 0⟩, ⟨"B", 1⟩, ⟨"C", 2⟩, ⟨"D", 3⟩, ⟨"E", 4⟩]⟩

/-- Sparse enum, values 0 and 100 (density 50). -/
def edSparse : EnumDef := ⟨"Sparse", .intB, [⟨"A", 0⟩, ⟨"B", 100⟩]⟩

/-- Boundary enum, values 0 and 9: range 10, two enumerators, density
exactly 5. -/
def edBoundary : EnumDef := ⟨"Edge", .intB, [⟨"A", 0⟩, ⟨"B", 9⟩]⟩

/-- Enum with nonzero minimum and a gap: values 1 and 3. -/
def edShifted : EnumDef := ⟨"Hue", .intB, [⟨"Red", 1⟩, ⟨"Green", 3⟩]⟩

/-- A plain 32-bit integer field type. -/
def intTy : FTy := .scalar .intB none

/-- A table with a string key field. -/
def keyFieldStr : FieldD := .mk "name" .str 4 false false true 0 "0"

def sdStrKey : SDef := .mk "Mstr" false 1 0 false true [keyFieldStr]

/-- A table with a numeric (Int32) key field. -/
def keyFieldInt : FieldD := .mk "id" intTy 4 false false true 0 "0"

def sdIntKey : SDef := .mk "Mint" false 1 0 false true [keyFieldInt]

/-- Two same-size int fields for the sortbysize create method. -/
def fldA : FieldD := .mk "a" intTy 4 false false false 0 "0"

def fldB : FieldD := .mk "b" intTy 6 false false false 0 "0"

def sdSort : SDef := .mk "T3" false 1 0 true false [fldA, fldB]

/-- A nested fixed record: one 16-bit field, bytesize 2, minalign 1. -/
def innerS : SDef := .mk "Inner" true 1 2 false false
  [.mk "y" (FTy.scalar .shortB none) 0 false false false 0 "0"]

/-- The outer fixed record: an int field, then the nested record with two
padding bytes before it in the reverse walk. -/
def outerFA : FieldD := .mk "a" intTy 0 false false false 0 "0"

def outerFS : FieldD := .mk "s" (FTy.strukt innerS) 4 false false false 2 "0"

def outerS : SDef := .mk "Outer" true 4 8 false false [outerFA, outerFS]

/-- A small enum used for enum-typed fields. -/
def edColor : EnumDef := ⟨"Color", .charB, [⟨"Red", 1⟩, ⟨"Green", 2⟩]⟩

/-- Fields of the accessor-test table. -/
def reqStrF : FieldD := .mk "rs" .str 4 false true false 0 "0"

def optStrF : FieldD := .mk "os" .str 6 false false false 0 "0"

def scalarF : FieldD := .mk "hp" (FTy.scalar .shortB none) 8 false false false 0 "100"

def enumF : FieldD := .mk "color" (FTy.scalar .charB (some edColor)) 10 false false false 0 "2"

def structF : FieldD := .mk "pos" (FTy.strukt innerS) 12 false false false 0 "0"

def sdOther : SDef := .mk "Other" false 1 0 false false []

def tblRefF : FieldD := .mk "friend_t" (FTy.strukt sdOther) 14 false false false 0 "0"

def vecIntF : FieldD := .mk "inventory" (FTy.vec (FTy.scalar .ucharB none)) 16 false false false 0 "0"

def vecBoolF : FieldD := .mk "flags" (FTy.vec (FTy.scalar .boolB none)) 18 false false false 0 "0"

def vecStructF : FieldD := .mk "pts" (FTy.vec (FTy.strukt innerS)) 20 false false false 0 "0"

def unionF : FieldD := .mk "anyv" (FTy.uni (some edColor)) 22 false false false 0 "0"

/-- A vector-of-enum field, exercising the vector destination mask. -/
def vecEnumF : FieldD := .mk "colors" (FTy.vec (FTy.scalar .charB (some edColor))) 24 false false false 0 "0"

def sdT4 : SDef := .mk "T4" false 1 0 false false
  [reqStrF, optStrF, scalarF, enumF, structF, tblRefF, vecIntF, vecBoolF, vecStructF, unionF]

/-- Table with a required field, a plain field, and a field that is both
deprecated and required. -/
def reqOnlyF : FieldD := .mk "req1" .str 4 false true false 0 "0"

def normF : FieldD := .mk "n" intTy 6 false false false 0 "0"

def depReqF : FieldD := .mk "gone" .str 8 true true false 0 "0"

def sdT5 : SDef := .mk "T5" false 1 0 false false [reqOnlyF, normF, depReqF]

/-- Tables for the mutator claim: the same int field inside a table and
inside a fixed record. -/
def mutIntF : FieldD := .mk "hp" (FTy.scalar .shortB none) 6 false false false 0 "0"

def sdMutT : SDef := .mk "M6" false 1 0 false false [mutIntF]

def sdMutS : SDef := .mk "S6" true 2 2 false false [mutIntF]

/-- Table with a deprecated field between two live ones, for the slot
index claim. -/
def c10a : FieldD := .mk "a" intTy 4 false false false 0 "0"

def c10dep : FieldD := .mk "old" intTy 6 true false false 0 "0"

def c10c : FieldD := .mk "c" .str 8 false false false 0 "0"

def sdT7 : SDef := .mk "T7" false 1 0 false false [c10a, c10dep, c10c]

/-- Concatenation of a list of strings (used to relate the loop-built
emission text to per-item text). -/
def joinStrs : List String → String
  | [] => ""
  | s :: rest => s ++ joinStrs rest

/-- Follows the claim's words (C2): the create method adds fields "in
passes from the largest scalar inline size down to 1, and within each size
pass the fields appear in their original declaration order". -/
def claimCreateOrder (sd : SDef) : List FieldD :=
  ((createSizes sd).map (fun s => sd.fields.filter (createPassCond sd s))).flatten

/-- The fields paired with their declaration indices starting at `i`
(deprecated fields keep their index). -/
def declIndexed : Nat → List FieldD → List (Nat × FieldD)
  | _, [] => []
  | i, f :: rest => (i, f) :: declIndexed (i + 1) rest

/-! Helper lemmas. -/

theorem joinStrs_append (a b : List String) :
    joinStrs (a ++ b) = joinStrs a ++ joinStrs b := by
  induction a with
  | nil => simp [joinStrs, String.empty_append]
  | cons s rest ih => simp [joinStrs, ih, String.append_assoc]

theorem infix_append_left {l a b : List Char} (h : l <:+: a) : l <:+: a ++ b :=
  h.trans (List.prefix_append a b).isInfix

theorem infix_append_right {l a b : List Char} (h : l <:+: b) : l <:+: a ++ b :=
  h.trans (List.suffix_append a b).isInfix

theorem createAddOrderInner_eq (sd : SDef) (s : Nat) (l : List FieldD) :
    createAddOrderInner sd s l = (l.filter (createPassCond sd s)).reverse := by
  induction l with
  | nil => rfl
  | cons f rest ih =>
    cases hc : createPassCond sd s f <;>
      simp [createAddOrderInner, List.filter_cons, hc, ih]

theorem createAddLoopInner_eq (sd : SDef) (s : Nat) (l : List FieldD) :
    createAddLoopInner sd s l
      = joinStrs ((createAddOrderInner sd s l).map (createAddCall sd.name)) := by
  induction l with
  | nil => rfl
  | cons f rest ih =>
    cases hc : createPassCond sd s f <;>
      simp [createAddLoopInner, createAddOrderInner, hc, ih, List.map_append,
        joinStrs_append, joinStrs, String.append_empty]

theorem createAddLoop_eq (sd : SDef) (ss : List Nat) :
    createAddLoop sd ss
      = joinStrs (((ss.map (fun s => createAddOrderInner sd s sd.fields)).flatten).map
          (createAddCall sd.name)) := by
  induction ss with
  | nil => rfl
  | cons s rest ih =>
    simp [createAddLoop, ih, createAddLoopInner_eq, createAddOrderInner_eq,
      List.map_append, joinStrs_append]

/-- C2 (amended): when `sortbysize` is set, the create method emits the
`add` calls in passes of size 8, 4, 2, 1, and within each size pass the
fields appear in **reverse** declaration order; the emitted text is
exactly the concatenation of one `add` call per field in that order. -/
theorem c2_sortbysize_reverse_within_pass (sd : SDef) (h : sd.sortbysize = true) :
    createAddOrder sd
      = ([8, 4, 2, 1].map (fun s => (sd.fields.filter (createPassCond sd s)).reverse)).flatten
    ∧ createAddLoop sd (createSizes sd)
      = joinStrs ((createAddOrder sd).map (createAddCall sd.name)) := by
  constructor
  · simp [createAddOrder, createSizes, h, createAddOrderInner_eq]
  · simp [createAddLoop_eq, createAddOrder, createAddOrderInner_eq, createSizes]

/-- Witness for c2_sortbysize_reverse_within_pass at the concrete
two-int-field table. -/
theorem c2_sortbysize_reverse_within_pass_witness :
    createAddOrder sdSort
      = ([8, 4, 2, 1].map (fun s => (sdSort.fields.filter (createPassCond sdSort s)).reverse)).flatten
    ∧ createAddLoop sdSort (createSizes sdSort)
      = joinStrs ((createAddOrder sdSort).map (createAddCall sdSort.name)) :=
  c2_sortbysize_reverse_within_pass sdSort rfl

/-- C2 (counterexample): for a `sortbysize` table with two int fields
`a`, `b` declared in this order, the create method adds `b` before `a`,
not the claimed declaration order. -/
theorem c2_counterexample :
    (createAddOrder sdSort).map FieldD.name ≠ (claimCreateOrder sdSort).map FieldD.name
    ∧ (createAddOrder sdSort).map FieldD.name = ["b", "a"]
    ∧ (claimCreateOrder sdSort).map FieldD.name = ["a", "b"]
    ∧ strContains "    T3.addB(builder, b: b);\n    T3.addA(builder, a: a);\n"
        (genCreate sdSort) = true := by
  refine ⟨?_, ?_, ?_, ?_⟩ <;> decide

theorem genStructBodyField_infix_fieldsRev {f : FieldD} {l : List FieldD} (pfx : String)
    (hf : f ∈ l) :
    (genStructBodyField f pfx).data <:+: (genStructBodyFieldsRev l pfx).data := by
  induction l with
  | nil => cases hf
  | cons g rest ih =>
    rcases List.mem_cons.mp hf with h | h
    · subst h
      simp only [genStructBodyFieldsRev, String.data_append]
      exact (List.suffix_append _ _).isInfix
    · simp only [genStructBodyFieldsRev, String.data_append]
      exact infix_append_left (ih h)

/-- C3 (amended): the fixed-record flatten recurses into a nested fixed
record with the parent field's name (plus `_`) prefixed, and the nested
invocation starts with its **own** `Prep` reservation line: the
reservation is emitted at the head of every `GenStructBody` call, nested
calls included, not only for the outermost record. -/
theorem c3_nested_flatten (sd : SDef) (pfx : String) (f : FieldD) (sd2 : SDef)
    (hf : f ∈ sd.fields) (hty : f.ty = FTy.strukt sd2) (hfix : sd2.fixed = true) :
    (genStructBody sd2 (pfx ++ f.name ++ "_")).data <:+: (genStructBody sd pfx).data
    ∧ (prepLine sd2).data <+: (genStructBody sd2 (pfx ++ f.name ++ "_")).data := by
  constructor
  · have h1 : genStructBodyField f pfx
        = padLine f ++ genStructBody sd2 (pfx ++ f.name ++ "_") := by
      cases f with
      | mk n ty off dep req k pad c =>
        simp only [FieldD.ty] at hty
        subst hty
        simp [genStructBodyField, hfix, FieldD.name]
    have h2 := genStructBodyField_infix_fieldsRev pfx hf
    rw [h1, String.data_append] at h2
    have h3 : (genStructBody sd2 (pfx ++ f.name ++ "_")).data
        <:+: (genStructBodyFieldsRev sd.fields pfx).data :=
      ((List.suffix_append (padLine f).data _).isInfix).trans h2
    cases sd with
    | mk n fx ma bs ss hk fs =>
      simp only [genStructBody, String.data_append, SDef.fields] at h3 ⊢
      exact infix_append_right h3
  · cases sd2 with
    | mk n fx ma bs ss hk fs =>
      exact ⟨(genStructBodyFieldsRev fs (pfx ++ f.name ++ "_")).data,
        (String.data_append _ _).symm⟩

/-- Witness for c3_nested_flatten at the concrete nested record. -/
theorem c3_nested_flatten_witness :
    (genStructBody innerS ("" ++ outerFS.name ++ "_")).data <:+: (genStructBody outerS "").data
    ∧ (prepLine innerS).data <+: (genStructBody innerS ("" ++ outerFS.name ++ "_")).data :=
  c3_nested_flatten outerS "" outerFS innerS
    (List.mem_cons_of_mem _ (List.mem_cons_self _ _)) rfl rfl

set_option maxRecDepth 8192 in
/-- C3 (counterexample): the nested record's `Prep` line
(`prep(size:1, additionalBytes: 2)`) appears inside the outer record's
flatten, so space reservation is *not* restricted to the outermost call;
the full emitted text also exhibits the reverse walk and the `s_`-prefixed
nested argument name. -/
theorem c3_counterexample :
    strContains "    builder.prep(size:1, additionalBytes: 2);\n" (genStructBody outerS "") = true
    ∧ genStructBody outerS ""
      = "    builder.prep(size:4, additionalBytes: 8);\n    builder.pad(size: 2);\n    builder.prep(size:1, additionalBytes: 2);\n    builder.putInt16(s_y);\n    builder.putInt32(a);\n" := by
  refine ⟨?_, ?_⟩ <;> decide

set_option maxRecDepth 16384 in
/-- C1: for a table with a *string* key field, `LookupByKey` contains the
complete binary search (span halving, the three-way comparison branches,
the element return and the final `nil`), but for a *numeric* (Int32) key
field the emitted routine is only the signature line: the C++ brace of
`if (key_field ... == BASE_TYPE_STRING)` (src line 1023) closes only at
src line 1048, so the whole body is string-only and the claim's
numeric-key half fails (code bug: `GenLookupKeyGetter`'s numeric branch is
dead code and the emitted Swift function is left unterminated). -/
theorem c1_numeric_key_lookup_missing_body :
    genLookupByKey sdIntKey keyFieldInt
      = "\n  public static func lookupByKey(vectorOffset: VectorOffset, key: Int32, _ bb: ByteBuffer) -> Mint? \x7b\n"
    ∧ strContains "while (span != 0)" (genLookupByKey sdIntKey keyFieldInt) = false
    ∧ strContains "return nil" (genLookupByKey sdIntKey keyFieldInt) = false
    ∧ strContains "span / 2" (genLookupByKey sdIntKey keyFieldInt) = false
    ∧ strContains "    while (span != 0) \x7b\n      var middle = span / 2;\n"
        (genLookupByKey sdStrKey keyFieldStr) = true
    ∧ strContains "      if (comp > 0) \x7b\n        span = middle;\n"
        (genLookupByKey sdStrKey keyFieldStr) = true
    ∧ strContains "        middle += 1;\n        start += middle;\n        span -= middle;\n"
        (genLookupByKey sdStrKey keyFieldStr) = true
    ∧ strContains "        return obj.__assign(tableOffset, bb);\n"
        (genLookupByKey sdStrKey keyFieldStr) = true
    ∧ strContains "    return nil;\n" (genLookupByKey sdStrKey keyFieldStr) = true := by
  refine ⟨?_, ?_, ?_, ?_, ?_, ?_, ?_, ?_, ?_⟩ <;> decide

set_option maxRecDepth 16384 in
/-- C4 (amended): the name-table decision computes
`range = lastValue - firstValue + 1` and emits the dense table exactly
when the truncating division `range / enumeratorCount` is **strictly**
below 5: values `\x7b0,1,2,3,4\x7d` (density 1) include the table, `\x7b0,100\x7d`
(density 50) omit it, and at the exact boundary density `= 5` the table
is **omitted**, not kept. -/
theorem c4_density_threshold :
    Int.tdiv (enumRange edDense) (edDense.vals.length : Int) = 1
    ∧ strContains "let names : [String] = [ " (genEnum edDense) = true
    ∧ strContains "public static func name(_ e: Int) -> String" (genEnum edDense) = true
    ∧ Int.tdiv (enumRange edSparse) (edSparse.vals.length : Int) = 50
    ∧ strContains "let names" (genEnum edSparse) = false
    ∧ Int.tdiv (enumRange edBoundary) (edBoundary.vals.length : Int) = 5
    ∧ strContains "let names" (genEnum edBoundary) = false
    ∧ enumShouldEmitNames edDense = true
    ∧ enumShouldEmitNames edSparse = false
    ∧ enumShouldEmitNames edBoundary = false := by
  refine ⟨?_, ?_, ?_, ?_, ?_, ?_, ?_, ?_, ?_, ?_⟩ <;> decide

set_option maxRecDepth 16384 in
/-- C4 (counterexample): the claim says a density of exactly 5 keeps the
table; for enumerator values `\x7b0, 9\x7d` the density is exactly 5 and the
generator emits no name table at all. -/
theorem c4_boundary_counterexample :
    Int.tdiv (enumRange edBoundary) (edBoundary.vals.length : Int) = 5
    ∧ enumShouldEmitNames edBoundary = false
    ∧ strContains "names" (genEnum edBoundary) = false := by
  refine ⟨?_, ?_, ?_⟩ <;> decide

theorem placeholderRun_eq (n : Nat) :
    placeholderRun n = joinStrs (List.replicate n "\"\", ") := by
  induction n with
  | zero => rfl
  | succ m ih => simp [placeholderRun, List.replicate_succ, joinStrs, ih]

theorem enumNamesText_eq (val : Int) (l : List EnumVal) :
    enumNamesText val l
      = joinStrs ((enumNamesList val l).map (fun s => "\"" ++ s ++ "\", ")) := by
  induction l generalizing val with
  | nil => rfl
  | cons ev rest ih =>
    have hplaceholder : ("\"" ++ ("" ++ "\", ")) = "\"\", " := by decide
    simp only [enumNamesText, enumNamesList, ih, List.map_append, List.map_replicate,
      joinStrs_append, List.map_cons, List.map_nil, joinStrs, hplaceholder,
      placeholderRun_eq, String.append_empty, String.append_assoc]

theorem enumNamesList_get :
    ∀ (start : Int) (l : List EnumVal),
      List.Pairwise (fun a b : EnumVal => a.value < b.value) l →
      (∀ ev ∈ l, start ≤ ev.value) →
      ∀ ev ∈ l,
        (enumNamesList start l).get? (ev.value - start).toNat = some (caseNameOf ev.name)
  | _, [], _, _, _, hev => by cases hev
  | start, v :: rest, hp, hstart, ev, hev => by
    have hsv : start ≤ v.value := hstart v (List.mem_cons_self v rest)
    have hlen : (List.replicate (v.value - start).toNat ("" : String)).length
        = (v.value - start).toNat := List.length_replicate _ _
    rcases List.mem_cons.mp hev with h | h
    · subst h
      rw [enumNamesList, List.append_assoc,
        List.get?_append_right (by rw [hlen]),
        hlen, Nat.sub_self]
      rfl
    · have hvlt : ev.value > v.value := (List.pairwise_cons.mp hp).1 ev h
      rw [enumNamesList, List.append_assoc,
        List.get?_append_right (by rw [hlen]; omega)]
      have hidx : (ev.value - start).toNat
          - (List.replicate (v.value - start).toNat ("" : String)).length
          = ((ev.value - (v.value + 1)).toNat) + 1 := by rw [hlen]; omega
      rw [hidx]
      show (enumNamesList (v.value + 1) rest).get? ((ev.value - (v.value + 1)).toNat)
        = some (caseNameOf ev.name)
      exact enumNamesList_get (v.value + 1) rest (List.pairwise_cons.mp hp).2
        (fun e he => by have := (List.pairwise_cons.mp hp).1 e he; omega) ev h

/-- C5 (amended): for strictly ascending enumerator values, the emitted
names table is indexed positionally by `value - minValue` (gaps filled
with empty-string placeholders), and the table text is exactly the
quoted rendering of that positional list; the emitted dense lookup
function, however, subtracts the first enumerator's *name* token (that is,
`names[e - <firstName>]`), not the numeric minimum value. -/
theorem c5_dense_table_indexing (ed : EnumDef)
    (hp : List.Pairwise (fun a b : EnumVal => a.value < b.value) ed.vals) :
    (∀ ev ∈ ed.vals,
       (enumNamesList (enumFrontValue ed) ed.vals).get? ((ev.value - enumFrontValue ed).toNat)
         = some (caseNameOf ev.name))
    ∧ enumNamesText (enumFrontValue ed) ed.vals
        = joinStrs ((enumNamesList (enumFrontValue ed) ed.vals).map (fun s => "\"" ++ s ++ "\", "))
    ∧ (enumShouldEmitNames ed = true → enumFrontValue ed ≠ 0 →
        (" - " ++ enumFrontName ed ++ "]; \x7d\n").data <:+: (genEnum ed).data) := by
  refine ⟨?_, enumNamesText_eq _ _, ?_⟩
  · intro ev hev
    refine enumNamesList_get (enumFrontValue ed) ed.vals hp ?_ ev hev
    intro e he
    cases hl : ed.vals with
    | nil => rw [hl] at he; cases he
    | cons v rest =>
      have hfront : enumFrontValue ed = v.value := by
        rw [enumFrontValue, hl]; rfl
      rw [hl] at he hp
      rcases List.mem_cons.mp he with h | h
      · rw [hfront, h]
      · have := (List.pairwise_cons.mp hp).1 e h
        rw [hfront]; omega
  · intro hemit hmin
    have h1 : (" - " ++ enumFrontName ed ++ "]; \x7d\n").data <:+ (enumNameFnText ed).data := by
      rw [enumNameFnText, if_pos hmin]
      refine ⟨("  public static func" ++ " " ++ makeCamel "name" false
        ++ "(_ e: Int) -> String \x7b return names[e").data, ?_⟩
      simp only [String.data_append, List.append_assoc]
    have h3 : genEnum ed
        = ("public enum " ++ ed.name ++ " : " ++ genTypeBasic (.scalar ed.underlying none) false
            ++ " \x7b\n" ++ genEnumCases ed.vals
            ++ ("\n  public static " ++ "let names : [String] = [ "
                ++ enumNamesText (enumFrontValue ed) ed.vals ++ "]\n\n"))
          ++ enumNameFnText ed ++ ("\x7d" ++ "\n\n") := by
      rw [genEnum, if_pos hemit]
      simp only [String.append_assoc]
    rw [h3]
    simp only [String.data_append]
    exact infix_append_left (infix_append_right h1.isInfix)

set_option maxRecDepth 16384 in
/-- Witness for c5_dense_table_indexing at the enum with values
`\x7b Red = 1, Green = 3 \x7d`. -/
theorem c5_dense_table_indexing_witness :
    (∀ ev ∈ edShifted.vals,
       (enumNamesList (enumFrontValue edShifted) edShifted.vals).get?
           ((ev.value - enumFrontValue edShifted).toNat)
         = some (caseNameOf ev.name))
    ∧ enumNamesText (enumFrontValue edShifted) edShifted.vals
        = joinStrs ((enumNamesList (enumFrontValue edShifted) edShifted.vals).map
            (fun s => "\"" ++ s ++ "\", "))
    ∧ (enumShouldEmitNames edShifted = true → enumFrontValue edShifted ≠ 0 →
        (" - " ++ enumFrontName edShifted ++ "]; \x7d\n").data <:+: (genEnum edShifted).data) :=
  c5_dense_table_indexing edShifted (by decide)

set_option maxRecDepth 16384 in
/-- C5 (counterexample): for the enum `\x7b Red = 1, Green = 3 \x7d` the
emitted lookup is `names[e - Red]` — the *name* of the first enumerator —
while the claim calls for subtracting the minimum enumerator *value*,
which would read `names[e - 1]`; the positional table itself
(`"Red", "", "Green"`) is as claimed. -/
theorem c5_counterexample :
    strContains "names[e - 1]" (genEnum edShifted) = false
    ∧ strContains "names[e - Red]" (genEnum edShifted) = true
    ∧ enumFrontValue edShifted = 1
    ∧ strContains "[ \"Red\", \"\", \"Green\", ]" (genEnum edShifted) = true := by
  refine ⟨?_, ?_, ?_, ?_⟩ <;> decide

/-- C6: for a non-deprecated string field of a table, the generated read
accessor's absent-slot branch is ` fatalError() ` exactly when the field
is `required`, and ` return nil ` otherwise; the rest of the accessor is
the same in both cases. -/
theorem c6_required_string_fatal (sd : SDef) (f : FieldD) (hfix : sd.fixed = false)
    (hty : f.ty = FTy.str) (hdep : f.deprecated = false) :
    genFieldAccessor sd f
      = "  public var " ++ makeCamel f.name false ++ " : " ++ "String" ++ "" ++ " "
        ++ " \x7b get" ++ accOffsetPre f ++ "return " ++ "" ++ "__p.__string"
        ++ "(at: o + __p." ++ "bb_pos) \x7d else \x7b"
        ++ (if f.required then " fatalError() \x7d" else " return nil \x7d")
        ++ ("; " ++ "\x7d ") ++ "\x7d\n" := by
  cases f with
  | mk n ty off dep req k pad c =>
    simp only [FieldD.ty] at hty
    subst hty
    simp [genFieldAccessor, hfix, genTypeNameDest, genTypeGet, isScalarB, baseOf,
      destinationCast, destinationMask, isEnumTy, genGetter, FieldD.name, FieldD.required,
      accOffsetPre, FieldD.offset, FieldD.ty, vectorElemBase, genTypeBasic, isStructTy,
      String.append_assoc, String.append_empty]

set_option maxRecDepth 16384 in
/-- Witness for c6_required_string_fatal: the required string field `rs`
of the concrete table traps on absence, and the non-required `os`
returns nil. -/
theorem c6_required_string_fatal_witness :
    genFieldAccessor sdT4 reqStrF
      = "  public var rs : String  \x7b get \x7b let o = __p.__offset(4); if o != 0 \x7b return __p.__string(at: o + __p.bb_pos) \x7d else \x7b fatalError() \x7d; \x7d \x7d\n"
    ∧ genFieldAccessor sdT4 optStrF
      = "  public var os : String  \x7b get \x7b let o = __p.__offset(6); if o != 0 \x7b return __p.__string(at: o + __p.bb_pos) \x7d else \x7b return nil \x7d; \x7d \x7d\n" := by
  constructor
  · rw [c6_required_string_fatal sdT4 reqStrF rfl rfl rfl]; decide
  · rw [c6_required_string_fatal sdT4 optStrF rfl rfl rfl]; decide

theorem genFieldAccessor_scalar_spec (sd : SDef) (f : FieldD) (b : BaseTy) (eo : Option EnumDef)
    (hfix : sd.fixed = false) (hty : f.ty = FTy.scalar b eo) (hsc : isScalarB b = true) :
    genFieldAccessor sd f
      = "  public var " ++ makeCamel f.name false ++ " : " ++ genTypeNameDest f.ty ++ "" ++ " "
        ++ " \x7b get" ++ accOffsetPre f
        ++ "return " ++ destinationCast f.ty ++ genGetter f.ty ++ "(at: o + __p.bb_pos)"
        ++ destinationMask f.ty
        ++ " \x7d else \x7b return "
        ++ (if eo.isNone then genTypeNameDest f.ty ++ "(" else "(")
        ++ genDefaultValue f.ty f.constant true ++ ") \x7d"
        ++ ("; " ++ "\x7d ") ++ "\x7d\n" := by
  cases f with
  | mk n ty off dep req k pad c =>
    simp only [FieldD.ty] at hty
    subst hty
    cases b <;>
      simp_all [genFieldAccessor, genTypeNameDest, genTypeGet, isScalarB, baseOf,
        destinationCast, destinationMask, isEnumTy, genGetter, FieldD.name, FieldD.required,
        accOffsetPre, FieldD.offset, FieldD.ty, FieldD.constant, vectorElemBase, genTypeBasic,
        isStructTy, enumRefOf, genDefaultValue, genEnumDefaultValue, enumRefName,
        String.append_assoc, String.append_empty]

theorem genFieldAccessor_str_spec (sd : SDef) (f : FieldD) (hfix : sd.fixed = false)
    (hty : f.ty = FTy.str) :
    genFieldAccessor sd f
      = "  public var " ++ makeCamel f.name false ++ " : " ++ "String" ++ "" ++ " "
        ++ " \x7b get" ++ accOffsetPre f ++ "return " ++ "" ++ "__p.__string"
        ++ "(at: o + __p." ++ "bb_pos) \x7d else \x7b"
        ++ (if f.required then " fatalError() \x7d" else " return nil \x7d")
        ++ ("; " ++ "\x7d ") ++ "\x7d\n" := by
  cases f with
  | mk n ty off dep req k pad c =>
    simp only [FieldD.ty] at hty
    subst hty
    simp [genFieldAccessor, hfix, genTypeNameDest, genTypeGet, isScalarB, baseOf,
      destinationCast, destinationMask, isEnumTy, genGetter, FieldD.name, FieldD.required,
      accOffsetPre, FieldD.offset, FieldD.ty, vectorElemBase, genTypeBasic, isStructTy,
      String.append_assoc, String.append_empty]

theorem genFieldAccessor_struct_spec (sd : SDef) (f : FieldD) (sd2 : SDef)
    (hfix : sd.fixed = false) (hty : f.ty = FTy.strukt sd2) :
    genFieldAccessor sd f
      = "  public var " ++ makeCamel f.name false ++ " : " ++ sd2.name ++ "?" ++ " "
        ++ " \x7b get" ++ accOffsetPre f
        ++ "var obj = " ++ sd2.name ++ "()" ++ "; return obj.__assign("
        ++ (if sd2.fixed then "o + __p.bb_pos" else "__p.__indirect(o + __p.bb_pos)")
        ++ ", __p.bb) \x7d else \x7b return nil \x7d"
        ++ ("; " ++ "\x7d ") ++ "\x7d\n" := by
  cases f with
  | mk n ty off dep req k pad c =>
    simp only [FieldD.ty] at hty
    subst hty
    simp [genFieldAccessor, genTypeNameDest, genTypeGet, isScalarB, baseOf,
      destinationCast, destinationMask, isEnumTy, genGetter, FieldD.name, FieldD.ty,
      accOffsetPre, FieldD.offset, vectorElemBase, genTypeBasic, isStructTy,
      hfix, String.append_assoc, String.append_empty]

theorem genFieldAccessor_union_spec (sd : SDef) (f : FieldD) (eo : Option EnumDef)
    (hfix : sd.fixed = false) (hty : f.ty = FTy.uni eo) :
    genFieldAccessor sd f
      = "    public func " ++ makeCamel f.name false ++ "<TTable : FlatbufferObject>() -> TTable? "
        ++ accOffsetPre f ++ "return " ++ "__p.__union" ++ "(o) \x7d else \x7b return nil \x7d"
        ++ "; " ++ "\x7d\n" := by
  cases f with
  | mk n ty off dep req k pad c =>
    simp only [FieldD.ty] at hty
    subst hty
    simp [genFieldAccessor, genTypeNameDest, genTypeGet, isScalarB, baseOf,
      destinationCast, destinationMask, isEnumTy, genGetter, FieldD.name, FieldD.ty,
      accOffsetPre, FieldD.offset, vectorElemBase, genTypeBasic, isStructTy,
      hfix, String.append_assoc, String.append_empty]

theorem genFieldAccessor_vecStructFixed_spec (sd : SDef) (f : FieldD) (sd2 : SDef)
    (hfix : sd.fixed = false) (hty : f.ty = FTy.vec (FTy.strukt sd2)) (h2 : sd2.fixed = true) :
    genFieldAccessor sd f
      = "    public func " ++ (makeCamel f.name false ++ ("(at j: Int) -> " ++ (sd2.name ++ ("?" ++ (" \x7b let o = __p.__offset(" ++ (toString f.offset ++ ("); if o != 0 \x7b " ++ ("var obj = " ++ (sd2.name ++ ("(); return obj.__assign(" ++ ("__p.__vector(o) + j * " ++ (toString sd2.bytesize ++ (", __p.bb) \x7d else \x7b return nil \x7d ; \x7d\n"))))))))))))) := by
  cases f with
  | mk n ty off dep req k pad c =>
    simp only [FieldD.ty] at hty
    subst hty
    simp [genFieldAccessor, genTypeNameDest, genTypeGet, isScalarB, baseOf,
      destinationCast, destinationMask, isEnumTy, genGetter, FieldD.name, FieldD.ty,
      accOffsetPre, FieldD.offset, vectorElemBase, genTypeBasic, isStructTy,
      inlineSize, sizeOfB, hfix, h2, String.append_assoc, String.append_empty]

theorem genFieldAccessor_vecTable_spec (sd : SDef) (f : FieldD) (sd2 : SDef)
    (hfix : sd.fixed = false) (hty : f.ty = FTy.vec (FTy.strukt sd2)) (h2 : sd2.fixed = false) :
    genFieldAccessor sd f
      = "    public func " ++ (makeCamel f.name false ++ ("(at j: Int) -> " ++ (sd2.name ++ ("?" ++ (" \x7b let o = __p.__offset(" ++ (toString f.offset ++ ("); if o != 0 \x7b " ++ ("var obj = " ++ (sd2.name ++ ("(); return obj.__assign(" ++ ("__p.__indirect(" ++ ("__p.__vector(o) + j * " ++ (toString (sizeOfB BaseTy.structB) ++ ("), __p.bb) \x7d else \x7b return nil \x7d ; \x7d\n")))))))))))))) := by
  cases f with
  | mk n ty off dep req k pad c =>
    simp only [FieldD.ty] at hty
    subst hty
    simp [genFieldAccessor, genTypeNameDest, genTypeGet, isScalarB, baseOf,
      destinationCast, destinationMask, isEnumTy, genGetter, FieldD.name, FieldD.ty,
      accOffsetPre, FieldD.offset, vectorElemBase, genTypeBasic, isStructTy,
      inlineSize, sizeOfB, hfix, h2, String.append_assoc, String.append_empty]

theorem genFieldAccessor_vecBool_spec (sd : SDef) (f : FieldD) 
    (hfix : sd.fixed = false) (hty : f.ty = FTy.vec (FTy.scalar .boolB none)) :
    genFieldAccessor sd f
      = "    public func " ++ (makeCamel f.name false ++ ("(at j: Int) -> " ++ (" \x7b let o = __p.__offset(" ++ (toString f.offset ++ ("); if o != 0 \x7b return 0!=__p.bb.get(at: " ++ ("__p.__vector(o) + j * " ++ (toString (sizeOfB BaseTy.boolB) ++ (") \x7d else \x7b return false \x7d ; \x7d\n")))))))) := by
  cases f with
  | mk n ty off dep req k pad c =>
    simp only [FieldD.ty] at hty
    subst hty
    simp [genFieldAccessor, genTypeNameDest, genTypeGet, isScalarB, baseOf,
      destinationCast, destinationMask, isEnumTy, genGetter, FieldD.name, FieldD.ty,
      accOffsetPre, FieldD.offset, vectorElemBase, genTypeBasic, isStructTy,
      inlineSize, sizeOfB, hfix, String.append_assoc, String.append_empty]

theorem genFieldAccessor_vecScalar_spec (sd : SDef) (f : FieldD) (b : BaseTy) (eo : Option EnumDef)
    (hfix : sd.fixed = false) (hty : f.ty = FTy.vec (FTy.scalar b eo))
    (hsc : isScalarB b = true) (hnb : b ≠ BaseTy.boolB) :
    genFieldAccessor sd f
      = "    public func " ++ makeCamel f.name false ++ "(at j: Int) -> "
        ++ accOffsetPre f ++ "return " ++ destinationCast f.ty ++ genGetter f.ty
        ++ "(at: " ++ ("__p.__vector(o) + j * " ++ toString (sizeOfB b)) ++ ")"
        ++ destinationMask f.ty
        ++ " \x7d else \x7b return " ++ (genTypeNameDest f.ty ++ "(" ++ "0") ++ " \x7d "
        ++ "; " ++ "\x7d\n" := by
  cases f with
  | mk n ty off dep req k pad c =>
    simp only [FieldD.ty] at hty
    subst hty
    cases b <;>
      simp_all [genFieldAccessor, genTypeNameDest, genTypeGet, isScalarB, baseOf,
        destinationCast, destinationMask, isEnumTy, genGetter, FieldD.name, FieldD.ty,
        accOffsetPre, FieldD.offset, vectorElemBase, genTypeBasic, isStructTy,
        inlineSize, sizeOfB, enumRefOf, enumRefName, hfix,
        String.append_assoc, String.append_empty]

set_option maxRecDepth 16384 in
/-- C7 (amended): for a non-deprecated field of a table, the read
accessor's absent-slot branch returns: the declared default (with its
cast) for scalars and enums; `nil` for *non-required* strings (a required
string traps instead — see the counterexample); `nil` for struct, union
and vector-of-struct fields; `false` for boolean vector elements; for
other scalar vector elements the zero cast is emitted as `ElemType(0`
with the closing parenthesis missing in this port; and the vector length
accessor returns `0` on absence. -/
theorem c7_absent_defaults :
    (∀ (sd : SDef) (f : FieldD) (b : BaseTy) (eo : Option EnumDef),
      sd.fixed = false → f.ty = FTy.scalar b eo → isScalarB b = true →
      genFieldAccessor sd f
      = "  public var " ++ makeCamel f.name false ++ " : " ++ genTypeNameDest f.ty ++ "" ++ " "
        ++ " \x7b get" ++ accOffsetPre f
        ++ "return " ++ destinationCast f.ty ++ genGetter f.ty ++ "(at: o + __p.bb_pos)"
        ++ destinationMask f.ty
        ++ " \x7d else \x7b return "
        ++ (if eo.isNone then genTypeNameDest f.ty ++ "(" else "(")
        ++ genDefaultValue f.ty f.constant true ++ ") \x7d"
        ++ ("; " ++ "\x7d ") ++ "\x7d\n")
    ∧ (∀ (sd : SDef) (f : FieldD),
      sd.fixed = false → f.ty = FTy.str → f.required = false →
      genFieldAccessor sd f
      = "  public var " ++ makeCamel f.name false ++ " : " ++ "String" ++ "" ++ " "
        ++ " \x7b get" ++ accOffsetPre f ++ "return " ++ "" ++ "__p.__string"
        ++ "(at: o + __p." ++ "bb_pos) \x7d else \x7b"
        ++ " return nil \x7d"
        ++ ("; " ++ "\x7d ") ++ "\x7d\n")
    ∧ (∀ (sd : SDef) (f : FieldD) (sd2 : SDef),
      sd.fixed = false → f.ty = FTy.strukt sd2 →
      genFieldAccessor sd f
      = "  public var " ++ makeCamel f.name false ++ " : " ++ sd2.name ++ "?" ++ " "
        ++ " \x7b get" ++ accOffsetPre f
        ++ "var obj = " ++ sd2.name ++ "()" ++ "; return obj.__assign("
        ++ (if sd2.fixed then "o + __p.bb_pos" else "__p.__indirect(o + __p.bb_pos)")
        ++ ", __p.bb) \x7d else \x7b return nil \x7d"
        ++ ("; " ++ "\x7d ") ++ "\x7d\n")
    ∧ (∀ (sd : SDef) (f : FieldD) (eo : Option EnumDef),
      sd.fixed = false → f.ty = FTy.uni eo →
      genFieldAccessor sd f
      = "    public func " ++ makeCamel f.name false ++ "<TTable : FlatbufferObject>() -> TTable? "
        ++ accOffsetPre f ++ "return " ++ "__p.__union" ++ "(o) \x7d else \x7b return nil \x7d"
        ++ "; " ++ "\x7d\n")
    ∧ (∀ (sd : SDef) (f : FieldD) (sd2 : SDef),
      sd.fixed = false → f.ty = FTy.vec (FTy.strukt sd2) → sd2.fixed = true →
      genFieldAccessor sd f
      = "    public func " ++ (makeCamel f.name false ++ ("(at j: Int) -> " ++ (sd2.name ++ ("?" ++ (" \x7b let o = __p.__offset(" ++ (toString f.offset ++ ("); if o != 0 \x7b " ++ ("var obj = " ++ (sd2.name ++ ("(); return obj.__assign(" ++ ("__p.__vector(o) + j * " ++ (toString sd2.bytesize ++ (", __p.bb) \x7d else \x7b return nil \x7d ; \x7d\n"))))))))))))))
    ∧ (∀ (sd : SDef) (f : FieldD) (sd2 : SDef),
      sd.fixed = false → f.ty = FTy.vec (FTy.strukt sd2) → sd2.fixed = false →
      genFieldAccessor sd f
      = "    public func " ++ (makeCamel f.name false ++ ("(at j: Int) -> " ++ (sd2.name ++ ("?" ++ (" \x7b let o = __p.__offset(" ++ (toString f.offset ++ ("); if o != 0 \x7b " ++ ("var obj = " ++ (sd2.name ++ ("(); return obj.__assign(" ++ ("__p.__indirect(" ++ ("__p.__vector(o) + j * " ++ (toString (sizeOfB BaseTy.structB) ++ ("), __p.bb) \x7d else \x7b return nil \x7d ; \x7d\n")))))))))))))))
    ∧ (∀ (sd : SDef) (f : FieldD),
      sd.fixed = false → f.ty = FTy.vec (FTy.scalar .boolB none) →
      genFieldAccessor sd f
      = "    public func " ++ (makeCamel f.name false ++ ("(at j: Int) -> " ++ (" \x7b let o = __p.__offset(" ++ (toString f.offset ++ ("); if o != 0 \x7b return 0!=__p.bb.get(at: " ++ ("__p.__vector(o) + j * " ++ (toString (sizeOfB BaseTy.boolB) ++ (") \x7d else \x7b return false \x7d ; \x7d\n")))))))))
    ∧ (∀ (sd : SDef) (f : FieldD) (b : BaseTy) (eo : Option EnumDef),
      sd.fixed = false → f.ty = FTy.vec (FTy.scalar b eo) →
      isScalarB b = true → b ≠ BaseTy.boolB →
      genFieldAccessor sd f
      = "    public func " ++ makeCamel f.name false ++ "(at j: Int) -> "
        ++ accOffsetPre f ++ "return " ++ destinationCast f.ty ++ genGetter f.ty
        ++ "(at: " ++ ("__p.__vector(o) + j * " ++ toString (sizeOfB b)) ++ ")"
        ++ destinationMask f.ty
        ++ " \x7d else \x7b return " ++ (genTypeNameDest f.ty ++ "(" ++ "0") ++ " \x7d "
        ++ "; " ++ "\x7d\n")
    ∧ genVectorLength vecIntF
        = "  public var inventoryLength : Int \x7b get \x7b let o = __p.__offset(16); if o != 0 \x7b return __p.__vector_len(o) \x7d else \x7b return 0 \x7d; \x7d \x7d\n" := by
  refine ⟨genFieldAccessor_scalar_spec, ?_, genFieldAccessor_struct_spec,
    genFieldAccessor_union_spec, genFieldAccessor_vecStructFixed_spec,
    genFieldAccessor_vecTable_spec, genFieldAccessor_vecBool_spec,
    genFieldAccessor_vecScalar_spec, by decide⟩
  intro sd f hfix hty hreq
  rw [genFieldAccessor_str_spec sd f hfix hty, hreq]
  simp

set_option maxRecDepth 16384 in
/-- Witness for c7_absent_defaults: concrete absent-branch texts for the
fields of the example table (scalar default `Int16(100)`, enum default
`(Color.Green)`, nil markers, `false` for a bool vector element, the
unclosed `UInt8(0` zero cast, and the enum-element vector whose
destination mask is the duplicated `Color(rawValue: ` text). -/
theorem c7_absent_defaults_witness :
    genFieldAccessor sdT4 scalarF
      = "  public var hp : Int16  \x7b get \x7b let o = __p.__offset(8); if o != 0 \x7b return __p.bb.getInt16(at: o + __p.bb_pos) \x7d else \x7b return Int16(100) \x7d; \x7d \x7d\n"
    ∧ genFieldAccessor sdT4 enumF
      = "  public var color : Color  \x7b get \x7b let o = __p.__offset(10); if o != 0 \x7b return Color(rawValue: __p.bb.getInt8(at: o + __p.bb_pos))! \x7d else \x7b return (Color.Green) \x7d; \x7d \x7d\n"
    ∧ genFieldAccessor sdT4 vecIntF
      = "    public func inventory(at j: Int) ->  \x7b let o = __p.__offset(16); if o != 0 \x7b return __p.bb.get(at: __p.__vector(o) + j * 1) \x7d else \x7b return UInt8(0 \x7d ; \x7d\n"
    ∧ genFieldAccessor sdT4 vecBoolF
      = "    public func flags(at j: Int) ->  \x7b let o = __p.__offset(18); if o != 0 \x7b return 0!=__p.bb.get(at: __p.__vector(o) + j * 1) \x7d else \x7b return false \x7d ; \x7d\n"
    ∧ genFieldAccessor sdT4 unionF
      = "    public func anyv<TTable : FlatbufferObject>() -> TTable?  \x7b let o = __p.__offset(22); if o != 0 \x7b return __p.__union(o) \x7d else \x7b return nil \x7d; \x7d\n"
    ∧ genFieldAccessor sdT4 vecEnumF
      = "    public func colors(at j: Int) ->  \x7b let o = __p.__offset(24); if o != 0 \x7b return Color(rawValue: __p.bb.getInt8(at: __p.__vector(o) + j * 1)Color(rawValue:  \x7d else \x7b return Color(0 \x7d ; \x7d\n" := by
  refine ⟨?_, ?_, ?_, ?_, ?_, ?_⟩
  · rw [c7_absent_defaults.1 sdT4 scalarF BaseTy.shortB none rfl rfl rfl]; decide
  · rw [c7_absent_defaults.1 sdT4 enumF BaseTy.charB (some edColor) rfl rfl rfl]; decide
  · rw [(c7_absent_defaults.2.2.2.2.2.2.2.1) sdT4 vecIntF BaseTy.ucharB none rfl rfl rfl
      (by decide)]; decide
  · rw [(c7_absent_defaults.2.2.2.2.2.2.1) sdT4 vecBoolF rfl rfl]; decide
  · rw [(c7_absent_defaults.2.2.2.1) sdT4 unionF (some edColor) rfl rfl]; decide
  · rw [(c7_absent_defaults.2.2.2.2.2.2.2.1) sdT4 vecEnumF BaseTy.charB (some edColor) rfl rfl
      rfl (by decide)]; decide

set_option maxRecDepth 16384 in
/-- C7 (counterexample): the claim's "nil for strings" fails for a
required string field: the absent branch of the `rs` accessor traps with
`fatalError()` and contains no `return nil`. -/
theorem c7_required_string_counterexample :
    reqStrF.required = true
    ∧ strContains "fatalError()" (genFieldAccessor sdT4 reqStrF) = true
    ∧ strContains "return nil" (genFieldAccessor sdT4 reqStrF) = false := by
  refine ⟨?_, ?_, ?_⟩ <;> decide

theorem genEndRequiredCalls_eq (l : List FieldD) :
    genEndRequiredCalls l
      = joinStrs ((l.filter (fun g => !g.deprecated && g.required)).map requiredCallText) := by
  induction l with
  | nil => rfl
  | cons f rest ih =>
    cases hd : f.deprecated <;> cases hr : f.required <;>
      simp [genEndRequiredCalls, List.filter_cons, hd, hr, ih, joinStrs]

/-- C8 (amended): the generated `end<Record>` method emits, after
`endObject`, exactly one required-validation call for every field that is
required **and not deprecated**, in declaration order, and none for any
other field; a field that is both deprecated and required is skipped. -/
theorem c8_end_required_validation (sd : SDef) :
    genEnd sd
      = "  public static func " ++ "end" ++ sd.name
        ++ "(_ builder: FlatBufferBuilder) -> " ++ genOffsetType sd
        ++ " \x7b\n    let o = builder." ++ "endObject();\n"
        ++ joinStrs ((sd.fields.filter (fun g => !g.deprecated && g.required)).map requiredCallText)
        ++ "    return " ++ genOffsetConstruct sd "o" ++ ";\n  \x7d\n" := by
  rw [genEnd, genEndRequiredCalls_eq]

set_option maxRecDepth 16384 in
/-- C8 (counterexample): in the concrete table, the field `gone` is marked
required *and* deprecated; the claim promises one validation call for
every field marked required, but the emitted `endT5` contains a call only
for `req1` (offset 4) and none for `gone` (offset 8). -/
theorem c8_counterexample :
    depReqF.required = true ∧ depReqF.deprecated = true
    ∧ strContains "`required`(o, 8)" (genEnd sdT5) = false
    ∧ genEnd sdT5
      = "  public static func endT5(_ builder: FlatBufferBuilder) -> Offset<T5> \x7b\n    let o = builder.endObject();\n    builder.`required`(o, 4);  // req1\n    return Offset<T5>(o);\n  \x7d\n" := by
  refine ⟨?_, ?_, ?_, ?_⟩ <;> decide

set_option maxRecDepth 16384 in
/-- C9: scalar mutators are emitted only under the mutable-buffer option
and only for scalar fields or vectors of scalars; for a table field the
mutator tests the slot and returns false when absent (never materializing
the field) and true after the in-place write, while for a fixed-record
field it writes unconditionally with a `void` result. -/
theorem c9_mutators :
    (∀ (sd : SDef) (f : FieldD), genMutator false sd f = "")
    ∧ (∀ (sd : SDef) (f : FieldD),
        (isScalarB (baseOf f.ty)
          || (baseOf f.ty == BaseTy.vectorB && isScalarB (baseOf (vectorElem f.ty)))) = false →
        genMutator true sd f = "")
    ∧ (∀ (sd : SDef) (f : FieldD) (b : BaseTy) (eo : Option EnumDef),
        sd.fixed = false → f.ty = FTy.scalar b eo → isScalarB b = true →
        genMutator true sd f
          = "  public Bool" ++ (makeCamel "mutate" false ++ (makeCamel f.name true ++ ("(" ++ (genTypeNameDest f.ty ++ (" " ++ (f.name ++ (") \x7b " ++ ("let o = __p.__offset(" ++ (toString f.offset ++ ("); if (o != 0) \x7b " ++ (genSetter f.ty ++ ("(o + __p.bb_pos, " ++ (sourceCast f.ty ++ (((if b = BaseTy.boolB then "(byte)(" ++ (f.name ++ " ? 1 : 0)") else f.name) ++ "); return true; \x7d else \x7b return false; \x7d \x7d\n"))))))))))))))))
    ∧ (∀ (sd : SDef) (f : FieldD) (b : BaseTy) (eo : Option EnumDef),
        sd.fixed = true → f.ty = FTy.scalar b eo → isScalarB b = true →
        genMutator true sd f
          = "  public void " ++ (makeCamel "mutate" false ++ (makeCamel f.name true ++ ("(" ++ (genTypeNameDest f.ty ++ (" " ++ (f.name ++ (") \x7b " ++ (genSetter f.ty ++ ("(" ++ ("__p.bb_pos + " ++ (toString f.offset ++ (", " ++ (sourceCast f.ty ++ (((if b = BaseTy.boolB then "(byte)(" ++ (f.name ++ " ? 1 : 0)") else f.name) ++ "); \x7d\n"))))))))))))))))
    ∧ genMutator true sdT4 vecIntF
        = "  public BoolmutateInventory(int j, UInt8 inventory) \x7b let o = __p.__offset(16); if (o != 0) \x7b __p.bb.putUInt8(__p.__vector(o) + j * 1, inventory); return true; \x7d else \x7b return false; \x7d \x7d\n" := by
  refine ⟨fun sd f => by simp [genMutator], ?_, ?_, ?_, by decide⟩
  · intro sd f h
    simp [genMutator, h]
  · intro sd f b eo hfix hty hsc
    have hbv : (b == BaseTy.vectorB) = false := by cases b <;> simp_all [isScalarB]
    cases f with
    | mk n ty off dep req k pad c =>
      simp only [FieldD.ty] at hty
      subst hty
      simp [genMutator, vectorElem, baseOf, hsc, hbv, hfix,
        FieldD.name, FieldD.offset, FieldD.ty,
        String.append_assoc, String.append_empty]
  · intro sd f b eo hfix hty hsc
    have hbv : (b == BaseTy.vectorB) = false := by cases b <;> simp_all [isScalarB]
    cases f with
    | mk n ty off dep req k pad c =>
      simp only [FieldD.ty] at hty
      subst hty
      simp [genMutator, vectorElem, baseOf, hsc, hbv, hfix,
        FieldD.name, FieldD.offset, FieldD.ty,
        String.append_assoc, String.append_empty]

set_option maxRecDepth 16384 in
/-- Witness for c9_mutators: the concrete Int16 field mutator of a table
versus a fixed record. -/
theorem c9_mutators_witness :
    genMutator true sdMutT mutIntF
      = "  public BoolmutateHp(Int16 hp) \x7b let o = __p.__offset(6); if (o != 0) \x7b __p.bb.putInt16(o + __p.bb_pos, hp); return true; \x7d else \x7b return false; \x7d \x7d\n"
    ∧ genMutator true sdMutS mutIntF
      = "  public void mutateHp(Int16 hp) \x7b __p.bb.putInt16(__p.bb_pos + 6, hp); \x7d\n" := by
  constructor
  · rw [c9_mutators.2.2.1 sdMutT mutIntF BaseTy.shortB none rfl rfl rfl]; decide
  · rw [c9_mutators.2.2.2.1 sdMutS mutIntF BaseTy.shortB none rfl rfl rfl]; decide

theorem genAddSection_eq (i : Nat) (l : List FieldD) :
    genAddSection i l
      = joinStrs (((declIndexed i l).filter (fun p => !p.2.deprecated)).map
          (fun p => genAddMethod p.1 p.2
            ++ (if baseOf p.2.ty == BaseTy.vectorB then genVectorExtras p.2 else ""))) := by
  induction l generalizing i with
  | nil => rfl
  | cons f rest ih =>
    cases hd : f.deprecated <;>
      simp [genAddSection, declIndexed, List.filter_cons, hd, ih, joinStrs,
        String.append_assoc, String.empty_append]

set_option maxRecDepth 16384 in
/-- C10: the add-method section walks the fields with their declaration
indices — the index advances over deprecated fields while no method is
emitted for them — so each emitted `add<Field>` writes at the slot equal
to the field's declaration position counting deprecated fields; both
`start<Record>` and `create<Record>` announce the full declared field
count including deprecated fields (3 here, though only 2 fields are
live): the live fields `a` and `c` of the concrete table get slots 0 and
2, no method uses slot 1 and no method is emitted for the deprecated
field `old`. -/
theorem c10_slot_indices :
    (∀ (i : Nat) (l : List FieldD),
       genAddSection i l
         = joinStrs (((declIndexed i l).filter (fun p => !p.2.deprecated)).map
             (fun p => genAddMethod p.1 p.2
               ++ (if baseOf p.2.ty == BaseTy.vectorB then genVectorExtras p.2 else ""))))
    ∧ genStart sdT7
        = "  public static func startT7(_ builder: FlatBufferBuilder) \x7b builder.startObject(numFields: 3); \x7d\n"
    ∧ sdT7.fields.length = 3
    ∧ (sdT7.fields.filter (fun f => !f.deprecated)).length = 2
    ∧ strContains "startObject(numFields: 3);" (genCreate sdT7) = true
    ∧ strContains "builder.addInt32(0, a, 0)" (genAddSection 0 sdT7.fields) = true
    ∧ strContains "builder.addOffset(2, cOffset.value, 0)" (genAddSection 0 sdT7.fields) = true
    ∧ strContains "(1," (genAddSection 0 sdT7.fields) = false
    ∧ strContains "addOld" (genAddSection 0 sdT7.fields) = false := by
  refine ⟨genAddSection_eq, ?_, ?_, ?_, ?_, ?_, ?_, ?_, ?_⟩ <;> decide
